import Mathlib

/-!
Verification development for the jotalot note editor's suggestion pipeline.

The TypeScript sources are embedded shallowly:
* `GeminiService` (src/lib/gemini-api.ts, bundled in src/hooks/use-gemini-copilot.ts)
  becomes pure functions over an explicit network outcome;
* the copilot hook's state (`CopilotState`) and its operations become pure
  state-transition functions;
* the request scheduler (debounced effect, 2 s minimum interval, retry timer,
  60 s cooldown) becomes a step function over an explicit scheduler state,
  driven by timed events;
* the editor component (src/components/editor/note-editor.tsx) becomes pure
  transition functions over an editor state.

JavaScript strings are modelled as lists of characters (`Str`).
-/

/-- JavaScript strings, modelled as their character sequences. -/
abbrev Str := List Char

/-- Character data of a Lean string literal, used to embed JS string literals. -/
def strL (s : String) : Str := s.data

/-- JS truthiness of a nullable string: `null` and the empty string are falsy. -/
def jsTruthy (o : Option Str) : Bool :=
  match o with
  | none => false
  | some s => !s.isEmpty

/-- JS `s.startsWith(pat)`. -/
def startsWithL : Str → Str → Bool
  | _, [] => true
  | [], _ :: _ => false
  | c :: cs, p :: ps => c == p && startsWithL cs ps

/-- JS `s.includes(pat)`: `pat` occurs as a contiguous substring of `s`. -/
def subOcc (pat : Str) : Str → Bool
  | [] => pat.isEmpty
  | c :: rest => startsWithL (c :: rest) pat || subOcc pat rest

/-- JS `s.trim()`: strip whitespace from both ends. -/
def jsTrim (s : Str) : Str :=
  ((s.dropWhile Char.isWhitespace).reverse.dropWhile Char.isWhitespace).reverse

/-- JS `s.slice(a, b)` for non-negative indices. -/
def jsSlice (s : Str) (a b : Nat) : Str := (s.drop a).take (b - a)

namespace GeminiService

/-- What the remote `generateContent` call does: either the promise rejects
with an error message, or it resolves and `response.text()` yields `raw`. -/
inductive ApiOutcome where
  | apiThrow (msg : Str)
  | apiText (raw : Str)
deriving DecidableEq

/-- Observable outcome of `GeminiService.getCompletion`:
the resolved value (`response = none` is JS `null`), any exception that
escapes to the caller, and whether a network call was made. -/
structure CompletionOutcome where
  response : Option Str
  thrownOut : Option Str
  madeCall : Bool
deriving DecidableEq

/-- The `'[SPACE]'` sentinel token. -/
def spaceToken : Str := strL "[SPACE]"

/-- Post-processing of the raw model response inside `getCompletion`:
`response.text().trim()`, then the `[SPACE]` sentinel is replaced by a single
leading space (not doubled if a space already follows the token). -/
def processRaw (raw : Str) : Str :=
  let su := jsTrim raw
  if startsWithL su spaceToken then
    let afterToken := su.drop 7
    if startsWithL afterToken [' '] then afterToken else ' ' :: afterToken
  else su

/-- `GeminiService.getCompletion({text, cursorPosition})` with the network
call's behaviour supplied as `outcome`.  Mirrors the source: uninitialized
client returns null; `beforeCursor` shorter than 20 characters returns null
without calling; a rejected call is caught (logged) and resolves to null;
a resolved call is post-processed and filtered (`length > 100` or a double
newline yields null). -/
def getCompletion (initialized : Bool) (text : Str) (cursorPosition : Nat)
    (outcome : ApiOutcome) : CompletionOutcome :=
  if initialized = false then ⟨none, none, false⟩
  else
    let beforeCursor := text.take cursorPosition
    if beforeCursor.length < 20 then ⟨none, none, false⟩
    else
      match outcome with
      | .apiThrow _ => ⟨none, none, true⟩
      | .apiText raw =>
        let su := processRaw raw
        if 100 < su.length ∨ subOcc (strL "\n\n") su = true then ⟨none, none, true⟩
        else ⟨some su, none, true⟩

/-- `GeminiService.getSuggestion`: `completion?.suggestion || null`
(an empty suggestion string is falsy and also becomes null). -/
def getSuggestion (initialized : Bool) (text : Str) (cursorPosition : Nat)
    (outcome : ApiOutcome) : Option Str :=
  match (getCompletion initialized text cursorPosition outcome).response with
  | some s => if s.isEmpty then none else some s
  | none => none

end GeminiService

/-- `CopilotState` from src/hooks/use-gemini-copilot.ts. -/
structure CopilotState where
  suggestion : Option Str
  isLoading : Bool
  isEnabled : Bool
  error : Option Str
deriving DecidableEq

/-- `acceptSuggestion`: returns the live suggestion (null when none) and
clears only the `suggestion` field. -/
def acceptSuggestion (st : CopilotState) : Option Str × CopilotState :=
  (st.suggestion, { st with suggestion := none })

/-- `dismissSuggestion`: clears only the `suggestion` field. -/
def dismissSuggestion (st : CopilotState) : CopilotState :=
  { st with suggestion := none }

/-- The rate-limit test in `getSuggestionInternal`'s catch block:
`errorMessage.includes('429') || errorMessage.includes('Too Many Requests')
 || errorMessage.includes('quota')`. -/
def isRateLimitMsg (msg : Str) : Bool :=
  subOcc (strL "429") msg || subOcc (strL "Too Many Requests") msg ||
    subOcc (strL "quota") msg

/-- Error message shown after a provider throttling failure. -/
def rateLimitErrorMessage : Str :=
  strL "Rate limit reached - suggestions paused for 1 minute"

/-- Error message shown after a generic completion failure. -/
def serviceUnavailableMessage : Str :=
  strL "Suggestion service temporarily unavailable"

/-- How the awaited `geminiService.getSuggestion(...)` call ends inside
`getSuggestionInternal`: the promise resolves with a nullable suggestion,
or it rejects with an error message. -/
inductive SuggestionOutcome where
  | resolved (sug : Option Str)
  | thrown (msg : Str)
deriving DecidableEq

/-- The state update `getSuggestionInternal` applies once the awaited call
settles: a resolved value is stored with `error` cleared; a rejection clears
the suggestion and stores the rate-limit or the generic error message. -/
def getSuggestionInternalResult (st : CopilotState) (outcome : SuggestionOutcome) :
    CopilotState :=
  match outcome with
  | .resolved sug => { st with suggestion := sug, isLoading := false, error := none }
  | .thrown msg =>
    if isRateLimitMsg msg = true then
      { st with suggestion := none, isLoading := false,
                error := some rateLimitErrorMessage }
    else
      { st with suggestion := none, isLoading := false,
                error := some serviceUnavailableMessage }

/-- The deferred-retry snapshot: `pendingRetryData` plus the tick at which the
`setTimeout` scheduled in the rate-limit effect fires. -/
structure RetryData where
  text : Str
  cursor : Nat
  firesAt : Nat
deriving DecidableEq

/-- Scheduler-relevant state of `useGeminiCopilot`: the copilot state, the
debounced request input, the request window bookkeeping, the pending retry
(timeout plus `pendingRetryData` collapsed into one option), and the time of
the last processed event (`clock`). -/
structure SchedState where
  copilot : CopilotState
  debouncedRequestText : Str
  debouncedRequestCursor : Nat
  lastRequestText : Str
  lastRequestTime : Nat
  rateLimitCooldownUntil : Nat
  pendingRetry : Option RetryData
  clock : Nat
deriving DecidableEq

/-- Events driving the scheduler, each processed at an explicit tick:
the debounced request effect runs; the pending retry timer fires; a new
keystroke reaches `getSuggestion` (its debounced values); the in-flight
completion settles; and the UI operations of the hook. -/
inductive SchedEvent where
  | effectRun
  | retryFire
  | newInput (text : Str) (cursor : Nat)
  | responseOk (sug : Option Str)
  | responseFail (msg : Str)
  | toggleCopilot
  | acceptEvent
  | dismissEvent
deriving DecidableEq

/-- The conditions checked inside the retry timer callback before it
re-dispatches (`pendingRetryData` matches the current debounced input, no
suggestion is displayed, enabled, not loading). -/
def retryConditions (s : SchedState) (r : RetryData) : Bool :=
  r.text == s.debouncedRequestText && r.cursor == s.debouncedRequestCursor &&
    !jsTruthy s.copilot.suggestion && s.copilot.isEnabled && !s.copilot.isLoading

/-- One step of the scheduler at tick `now`, translated from
src/hooks/use-gemini-copilot.ts.  `effectRun` is the debounced request effect
(cooldown check, 2000 ms minimum interval with single retry arming, else
dispatch); `retryFire` is the timer callback; `newInput` is `getSuggestion`
(cancel pending retry, replace debounced input); the response events apply
`getSuggestionInternalResult` and the catch block's cooldown update. -/
def stepE (s : SchedState) (now : Nat) (ev : SchedEvent) : SchedState :=
  match ev with
  | .effectRun =>
    if s.debouncedRequestText ≠ [] ∧ s.copilot.isEnabled = true ∧
        s.copilot.isLoading = false then
      if now < s.rateLimitCooldownUntil then
        { s with clock := now }
      else if now - s.lastRequestTime < 2000 then
        match s.pendingRetry with
        | none =>
          { s with clock := now,
                   pendingRetry := some ⟨s.debouncedRequestText, s.debouncedRequestCursor,
                     now + (2000 - (now - s.lastRequestTime))⟩ }
        | some _ => { s with clock := now }
      else
        { s with clock := now,
                 lastRequestText := s.debouncedRequestText,
                 lastRequestTime := now,
                 copilot := { s.copilot with isLoading := true, error := none } }
    else { s with clock := now }
  | .retryFire =>
    match s.pendingRetry with
    | none => { s with clock := now }
    | some r =>
      if retryConditions s r = true then
        { s with clock := now,
                 pendingRetry := none,
                 lastRequestText := s.debouncedRequestText,
                 lastRequestTime := now,
                 copilot := { s.copilot with isLoading := true, error := none } }
      else
        { s with clock := now, pendingRetry := none }
  | .newInput text cursor =>
    { s with clock := now, pendingRetry := none,
             debouncedRequestText := text, debouncedRequestCursor := cursor }
  | .responseOk sug =>
    { s with clock := now,
             copilot := getSuggestionInternalResult s.copilot (.resolved sug) }
  | .responseFail msg =>
    { s with clock := now,
             copilot := getSuggestionInternalResult s.copilot (.thrown msg),
             rateLimitCooldownUntil :=
               if isRateLimitMsg msg = true then now + 60000
               else s.rateLimitCooldownUntil }
  | .toggleCopilot =>
    { s with clock := now,
             copilot := { s.copilot with isEnabled := !s.copilot.isEnabled,
                                         suggestion := none } }
  | .acceptEvent =>
    { s with clock := now, copilot := (acceptSuggestion s.copilot).2 }
  | .dismissEvent =>
    { s with clock := now, copilot := dismissSuggestion s.copilot }

/-- Whether processing `ev` at tick `now` dispatches a completion request
(the two call sites of `getSuggestionInternal`). -/
def dispatches (s : SchedState) (now : Nat) (ev : SchedEvent) : Bool :=
  match ev with
  | .effectRun =>
    !s.debouncedRequestText.isEmpty && s.copilot.isEnabled && !s.copilot.isLoading &&
      decide (s.rateLimitCooldownUntil ≤ now) &&
      decide (2000 ≤ now - s.lastRequestTime)
  | .retryFire =>
    match s.pendingRetry with
    | none => false
    | some r => retryConditions s r
  | _ => false

/-- Initial scheduler state (`useState` initialisers of the hook). -/
def initSched : SchedState :=
  { copilot := ⟨none, false, false, none⟩,
    debouncedRequestText := [], debouncedRequestCursor := 0,
    lastRequestText := [], lastRequestTime := 0,
    rateLimitCooldownUntil := 0, pendingRetry := none, clock := 0 }

/-- Run a list of timed events through the scheduler. -/
def runTrace (s : SchedState) : List (Nat × SchedEvent) → SchedState
  | [] => s
  | (t, ev) :: rest => runTrace (stepE s t ev) rest

/-- Validity of processing `ev` at tick `now` from state `s`, modelling the
single-threaded cooperative runtime: ticks never decrease; while a retry
timer is armed no event is processed past its scheduled tick, and the timer
callback itself runs exactly at that tick; a completion settles only while a
request is in flight and strictly after its dispatch tick. -/
def validStep (s : SchedState) (now : Nat) (ev : SchedEvent) : Bool :=
  decide (s.clock ≤ now) &&
  (match s.pendingRetry with
   | some r => decide (now ≤ r.firesAt)
   | none => true) &&
  (match ev with
   | .retryFire =>
     match s.pendingRetry with
     | some r => decide (now = r.firesAt)
     | none => false
   | .responseOk _ => s.copilot.isLoading && decide (s.lastRequestTime < now)
   | .responseFail _ => s.copilot.isLoading && decide (s.lastRequestTime < now)
   | _ => true)

/-- A timed event list is valid from `s` when each step is valid in turn. -/
def validFrom (s : SchedState) : List (Nat × SchedEvent) → Bool
  | [] => true
  | (t, ev) :: rest => validStep s t ev && validFrom (stepE s t ev) rest

/-- Structural invariant of the scheduler: the last dispatch does not lie in
the future, and an armed retry either was armed while idle (scheduled for
`lastRequestTime + 2000`) or a dispatch has happened at or after its
scheduled tick while it was still armed. -/
def SchedInv (s : SchedState) : Prop :=
  s.lastRequestTime ≤ s.clock ∧
  ∀ r, s.pendingRetry = some r →
    (s.copilot.isLoading = false ∧ r.firesAt = s.lastRequestTime + 2000) ∨
    (s.copilot.isLoading = true ∧ r.firesAt ≤ s.lastRequestTime)

/-- State during the cooldown window opened by a throttling error at tick
`T`: the cooldown extends at least to `T + 60000`, no retry is armed, and
the clock has passed `T`. -/
def CooldownInv (T : Nat) (s : SchedState) : Prop :=
  T + 60000 ≤ s.rateLimitCooldownUntil ∧ s.pendingRetry = none ∧ T ≤ s.clock

/-- `suggestionContext` state of the note editor. -/
structure SuggestionContext where
  originalContent : Str
  cursorPosition : Nat
  suggestion : Str
deriving DecidableEq

/-- Suggestion-relevant state of `NoteEditor`. -/
structure EditorState where
  content : Str
  suggestionContext : Option SuggestionContext
  displaySuggestion : Option Str
deriving DecidableEq

/-- Result of `handleContentChange`: the updated editor state, the hook's
suggestion after any `dismissSuggestion()` call, and the argument of a
`getSuggestion` request when one is issued. -/
structure ChangeResult where
  editor : EditorState
  copilotSuggestion : Option Str
  requested : Option (Str × Nat)
deriving DecidableEq

/-- The dismissal path shared by `handleContentChange`'s branches:
`copilot.dismissSuggestion(); setSuggestionContext(null);
setDisplaySuggestion(null)`. -/
def dismissAll (es : EditorState) : ChangeResult :=
  { editor := { es with suggestionContext := none, displaySuggestion := none },
    copilotSuggestion := none, requested := none }

/-- `handleContentChange` from src/components/editor/note-editor.tsx,
with the hook's `isEnabled` and `suggestion` passed in. -/
def handleContentChange (isEnabled : Bool) (copilotSuggestion : Option Str)
    (es : EditorState) (newContent : Str) (newCursorPosition : Nat) : ChangeResult :=
  let es := { es with content := newContent }
  if isEnabled = true ∧ newContent ≠ [] then
    match jsTruthy copilotSuggestion, es.suggestionContext with
    | true, some ctx =>
      if newContent.length < ctx.originalContent.length ∨
          newCursorPosition < ctx.cursorPosition then
        dismissAll es
      else
        let typedSinceOriginal := jsSlice newContent ctx.cursorPosition newCursorPosition
        let contentBeforeOriginalCursor := newContent.take ctx.cursorPosition
        if contentBeforeOriginalCursor ≠ ctx.originalContent.take ctx.cursorPosition then
          dismissAll es
        else if 0 < typedSinceOriginal.length then
          if startsWithL ctx.suggestion typedSinceOriginal = true then
            let remainingSuggestion := ctx.suggestion.drop typedSinceOriginal.length
            if 0 < remainingSuggestion.length then
              { editor := { es with displaySuggestion := some remainingSuggestion },
                copilotSuggestion := copilotSuggestion, requested := none }
            else dismissAll es
          else dismissAll es
        else
          { editor := es, copilotSuggestion := copilotSuggestion, requested := none }
    | _, _ =>
      { editor := es, copilotSuggestion := copilotSuggestion,
        requested := some (newContent, newCursorPosition) }
  else if jsTruthy copilotSuggestion = true then
    dismissAll es
  else
    { editor := es, copilotSuggestion := copilotSuggestion, requested := none }

/-- The keys `handleKeyDown` inspects. -/
inductive KeyEvent where
  | tab
  | escape
  | otherKey
deriving DecidableEq

/-- Result of `handleKeyDown`: updated editor state, hook suggestion, and
the caret position after the handler (set via `setSelectionRange`). -/
structure KeyResult where
  editor : EditorState
  copilotSuggestion : Option Str
  cursor : Nat
deriving DecidableEq

/-- `handleKeyDown` from src/components/editor/note-editor.tsx: Tab splices
the display suggestion into the buffer at the caret and moves the caret past
it; Escape dismisses; both are no-ops without a truthy display suggestion. -/
def handleKeyDown (key : KeyEvent) (copilotSuggestion : Option Str)
    (es : EditorState) (cursorPos : Nat) : KeyResult :=
  match key with
  | .tab =>
    if jsTruthy es.displaySuggestion = true then
      let ds := es.displaySuggestion.getD []
      { editor := { content := es.content.take cursorPos ++ ds ++ es.content.drop cursorPos,
                    suggestionContext := none, displaySuggestion := none },
        copilotSuggestion := none,
        cursor := cursorPos + ds.length }
    else { editor := es, copilotSuggestion := copilotSuggestion, cursor := cursorPos }
  | .escape =>
    if jsTruthy es.displaySuggestion = true then
      { editor := { es with suggestionContext := none, displaySuggestion := none },
        copilotSuggestion := none, cursor := cursorPos }
    else { editor := es, copilotSuggestion := copilotSuggestion, cursor := cursorPos }
  | .otherKey =>
    { editor := es, copilotSuggestion := copilotSuggestion, cursor := cursorPos }

/-- Combined controller state seen by the editor component: the feature flag
and suggestion owned by the hook, plus the component-local editor state. -/
structure EditorSys where
  isEnabled : Bool
  copilotSuggestion : Option Str
  editor : EditorState
deriving DecidableEq

/-- Controller operations of the editor component. -/
inductive EdEvent where
  | receiveEffect (selectionStart : Nat)
  | change (newContent : Str) (newCursor : Nat)
  | tabKey (cursorPos : Nat)
  | escKey (cursorPos : Nat)
  | setSuggestion (sug : Option Str)
  | toggleEvent
deriving DecidableEq

/-- One controller operation: `receiveEffect` is the suggestion-capture
`useEffect` (lines 68-83); `change` is `handleContentChange`; the key events
are `handleKeyDown`; `setSuggestion` is the hook updating its suggestion;
`toggleEvent` is `toggleCopilot` (flip flag, clear hook suggestion). -/
def stepEd (st : EditorSys) (ev : EdEvent) : EditorSys :=
  match ev with
  | .receiveEffect sel =>
    if jsTruthy st.copilotSuggestion = true ∧ st.editor.suggestionContext = none then
      { st with editor :=
          { st.editor with
              suggestionContext := some ⟨st.editor.content, sel,
                st.copilotSuggestion.getD []⟩,
              displaySuggestion := st.copilotSuggestion } }
    else if jsTruthy st.copilotSuggestion = false ∧ st.editor.suggestionContext ≠ none then
      { st with editor :=
          { st.editor with suggestionContext := none, displaySuggestion := none } }
    else st
  | .change newContent newCursor =>
    let r := handleContentChange st.isEnabled st.copilotSuggestion st.editor
      newContent newCursor
    { st with copilotSuggestion := r.copilotSuggestion, editor := r.editor }
  | .tabKey cursorPos =>
    let r := handleKeyDown .tab st.copilotSuggestion st.editor cursorPos
    { st with copilotSuggestion := r.copilotSuggestion, editor := r.editor }
  | .escKey cursorPos =>
    let r := handleKeyDown .escape st.copilotSuggestion st.editor cursorPos
    { st with copilotSuggestion := r.copilotSuggestion, editor := r.editor }
  | .setSuggestion sug => { st with copilotSuggestion := sug }
  | .toggleEvent =>
    { st with isEnabled := !st.isEnabled, copilotSuggestion := none }

/-- Initial editor state: empty buffer, no context, no display suggestion. -/
def initEd : EditorSys :=
  { isEnabled := false, copilotSuggestion := none,
    editor := { content := [], suggestionContext := none, displaySuggestion := none } }

/-- The display-suggestion invariant: when shown, the ghost text is a
non-empty suffix of the suggestion recorded in the live context. -/
def DisplayInv (es : EditorState) : Prop :=
  ∀ d, es.displaySuggestion = some d →
    d ≠ [] ∧ ∃ ctx, es.suggestionContext = some ctx ∧
      ∃ k, d = ctx.suggestion.drop k

theorem startsWithL_exists {s t : Str} (h : startsWithL s t = true) : ∃ u, s = t ++ u := by
  induction t generalizing s with
  | nil => exact ⟨s, rfl⟩
  | cons p ps ih =>
    cases s with
    | nil => simp [startsWithL] at h
    | cons c cs =>
      simp only [startsWithL, Bool.and_eq_true, beq_iff_eq] at h
      obtain ⟨rfl, h2⟩ := h
      obtain ⟨u, rfl⟩ := ih h2
      exact ⟨u, rfl⟩

theorem jsTruthy_iff {o : Option Str} : jsTruthy o = true ↔ ∃ s, o = some s ∧ s ≠ [] := by
  cases o with
  | none => simp [jsTruthy]
  | some s => simp [jsTruthy, List.isEmpty_iff]

/-- C10: `acceptSuggestion` returns exactly the previously live suggestion
(null when none) and, like `dismissSuggestion`, changes only the
`suggestion` field, leaving `isLoading`, `isEnabled` and `error` intact. -/
theorem c10_accept_dismiss_frame (st : CopilotState) :
    (acceptSuggestion st).1 = st.suggestion ∧
    (acceptSuggestion st).2.suggestion = none ∧
    (acceptSuggestion st).2.isLoading = st.isLoading ∧
    (acceptSuggestion st).2.isEnabled = st.isEnabled ∧
    (acceptSuggestion st).2.error = st.error ∧
    (dismissSuggestion st).suggestion = none ∧
    (dismissSuggestion st).isLoading = st.isLoading ∧
    (dismissSuggestion st).isEnabled = st.isEnabled ∧
    (dismissSuggestion st).error = st.error :=
  ⟨rfl, rfl, rfl, rfl, rfl, rfl, rfl, rfl, rfl⟩

/-- C1 counterexample: a provider failure inside `getCompletion` (here a
rejected `generateContent` call with error text containing "429 Too Many
Requests") does NOT propagate to the caller: the call resolves with a null
response and no exception, so the caller's catch path never observes the
provider's error text, contrary to the claim. -/
theorem c1_counterexample :
    GeminiService.getCompletion true (strL "the quick brown fox ju") 22
      (.apiThrow (strL "fetch failed: 429 Too Many Requests")) =
      ⟨none, none, true⟩ ∧
    GeminiService.getSuggestion true (strL "the quick brown fox ju") 22
      (.apiThrow (strL "fetch failed: 429 Too Many Requests")) = none := by
  exact ⟨by decide, by decide⟩

/-- C1 amended: every failure of the underlying call is caught inside
`GeminiService.getCompletion` (and logged), never thrown onward: the caller
of `requestCompletion`/`getSuggestion` observes only a null result, never an
exception or the provider's error text; the client performs no retry. -/
theorem c1_errors_swallowed (initialized : Bool) (text : Str) (cur : Nat)
    (outcome : GeminiService.ApiOutcome) (msg : Str) :
    (GeminiService.getCompletion initialized text cur outcome).thrownOut = none ∧
    (GeminiService.getCompletion initialized text cur (.apiThrow msg)).response = none ∧
    GeminiService.getSuggestion initialized text cur (.apiThrow msg) = none := by
  refine ⟨?_, ?_, ?_⟩
  · cases outcome with
    | apiThrow m =>
      simp only [GeminiService.getCompletion]
      split_ifs <;> rfl
    | apiText raw =>
      simp only [GeminiService.getCompletion]
      split_ifs <;> rfl
  · simp only [GeminiService.getCompletion]
    split_ifs <;> rfl
  · simp only [GeminiService.getSuggestion, GeminiService.getCompletion]
    split_ifs <;> rfl

/-- C6 counterexample: a completion attempt that resolves with a null
response returns to idle with the suggestion cleared but with `error`
explicitly reset to null — no user-visible error message is set, contrary
to the claim. -/
theorem c6_counterexample :
    (getSuggestionInternalResult ⟨some (strL " world"), true, true, none⟩
      (.resolved none)).suggestion = none ∧
    (getSuggestionInternalResult ⟨some (strL " world"), true, true, none⟩
      (.resolved none)).isLoading = false ∧
    (getSuggestionInternalResult ⟨some (strL " world"), true, true, none⟩
      (.resolved none)).error = none :=
  ⟨rfl, rfl, rfl⟩

/-- C6 amended: a null response returns the controller to idle with the
suggestion cleared and the error cleared as well (treated as success, no
user-visible message); only a thrown client failure sets a non-null error
message, distinguishing the rate-limit message from the generic
temporarily-unavailable message (which are distinct strings). -/
theorem c6_error_surfacing (st : CopilotState) (msg : Str) :
    (getSuggestionInternalResult st (.resolved none)).suggestion = none ∧
    (getSuggestionInternalResult st (.resolved none)).isLoading = false ∧
    (getSuggestionInternalResult st (.resolved none)).error = none ∧
    (getSuggestionInternalResult st (.thrown msg)).suggestion = none ∧
    (getSuggestionInternalResult st (.thrown msg)).isLoading = false ∧
    (getSuggestionInternalResult st (.thrown msg)).error =
      some (if isRateLimitMsg msg = true then rateLimitErrorMessage
            else serviceUnavailableMessage) ∧
    rateLimitErrorMessage ≠ serviceUnavailableMessage := by
  refine ⟨rfl, rfl, rfl, ?_, ?_, ?_, by decide⟩
  · simp only [getSuggestionInternalResult]
    split_ifs <;> rfl
  · simp only [getSuggestionInternalResult]
    split_ifs <;> rfl
  · simp only [getSuggestionInternalResult]
    split_ifs <;> rfl

/-- C9: the completion client returns null without making a network call
when the text before the cursor is shorter than 20 characters; and for any
raw model response whose post-processed form is longer than 100 characters
or contains a double newline, it returns null (no suggestion) rather than
an error. -/
theorem c9_skip_and_filter (initialized : Bool) (text : Str) (cur : Nat)
    (outcome : GeminiService.ApiOutcome) (init2 : Bool) (text2 : Str) (cur2 : Nat)
    (raw : Str) :
    ((text.take cur).length < 20 →
      GeminiService.getCompletion initialized text cur outcome = ⟨none, none, false⟩) ∧
    (100 < (GeminiService.processRaw raw).length ∨
        subOcc (strL "\n\n") (GeminiService.processRaw raw) = true →
      (GeminiService.getCompletion init2 text2 cur2 (.apiText raw)).response = none ∧
      (GeminiService.getCompletion init2 text2 cur2 (.apiText raw)).thrownOut = none) := by
  constructor
  · intro hshort
    simp only [GeminiService.getCompletion]
    split_ifs <;> rfl
  · intro hfilter
    simp only [GeminiService.getCompletion]
    split_ifs <;> exact ⟨rfl, rfl⟩

/-- C9 witness: concrete instances of both parts. -/
theorem c9_skip_and_filter_witness :
    ((strL "hello").take 5).length < 20 ∧
    GeminiService.getCompletion true (strL "hello") 5
      (.apiText (strL "x")) = ⟨none, none, false⟩ ∧
    subOcc (strL "\n\n") (GeminiService.processRaw (strL "it rains\n\nall day")) = true ∧
    (GeminiService.getCompletion true (strL "the quick brown fox jumps") 25
      (.apiText (strL "it rains\n\nall day"))).response = none :=
  ⟨by decide,
   (c9_skip_and_filter true (strL "hello") 5 (.apiText (strL "x"))
      true (strL "hello") 5 (strL "x")).1 (by decide),
   by decide,
   ((c9_skip_and_filter true (strL "x") 0 (.apiText (strL "x")) true
      (strL "the quick brown fox jumps") 25 (strL "it rains\n\nall day")).2
      (Or.inr (by decide))).1⟩

/-- C3: with a live display suggestion, Tab splices it into the buffer at the
cursor (`content.slice(0,c) + s + content.slice(c)`), moves the cursor to
`c + s.length`, and clears the context, display and hook suggestion; without
a live display suggestion, Tab is a no-op on buffer and suggestion state. -/
theorem c3_tab_roundtrip (content : Str) (c : Nat) (ds : Str)
    (ctx : Option SuggestionContext) (cop : Option Str)
    (_hc : c ≤ content.length) (hds : ds ≠ []) :
    (handleKeyDown .tab cop ⟨content, ctx, some ds⟩ c).editor.content =
      content.take c ++ ds ++ content.drop c ∧
    (handleKeyDown .tab cop ⟨content, ctx, some ds⟩ c).cursor = c + ds.length ∧
    (handleKeyDown .tab cop ⟨content, ctx, some ds⟩ c).editor.suggestionContext = none ∧
    (handleKeyDown .tab cop ⟨content, ctx, some ds⟩ c).editor.displaySuggestion = none ∧
    (handleKeyDown .tab cop ⟨content, ctx, some ds⟩ c).copilotSuggestion = none ∧
    (∀ es : EditorState, ∀ cop' : Option Str, ∀ c' : Nat,
      es.displaySuggestion = none → handleKeyDown .tab cop' es c' = ⟨es, cop', c'⟩) := by
  have hT : jsTruthy (some ds) = true := by
    simp [jsTruthy, List.isEmpty_iff, hds]
  refine ⟨?_, ?_, ?_, ?_, ?_, ?_⟩
  · simp [handleKeyDown, hT]
  · simp [handleKeyDown, hT]
  · simp [handleKeyDown, hT]
  · simp [handleKeyDown, hT]
  · simp [handleKeyDown, hT]
  · intro es cop' c' hnone
    simp [handleKeyDown, hnone, jsTruthy]

/-- C3 witness: accepting `" world"` at cursor 5 in `"hello"`. -/
theorem c3_tab_roundtrip_witness :
    5 ≤ (strL "hello").length ∧ strL " world" ≠ ([] : Str) ∧
    (handleKeyDown .tab (some (strL " world"))
      ⟨strL "hello", none, some (strL " world")⟩ 5).editor.content = strL "hello world" ∧
    (handleKeyDown .tab (some (strL " world"))
      ⟨strL "hello", none, some (strL " world")⟩ 5).cursor = 11 := by
  have h := c3_tab_roundtrip (strL "hello") 5 (strL " world") none
    (some (strL " world")) (by decide) (by decide)
  refine ⟨by decide, by decide, ?_, ?_⟩
  · rw [h.1]; decide
  · rw [h.2.1]; decide

/-- C4: while a suggestion is live, any change event whose new buffer is
shorter than the snapshot text, or whose new cursor precedes the snapshot
cursor, or whose text before the snapshot cursor differs from the snapshot's
prefix, clears the suggestion context, the display suggestion and the hook
suggestion. -/
theorem c4_disqualifying_edit (s : Str) (ctx : SuggestionContext) (d : Option Str)
    (oldContent nc : Str) (cur : Nat) (hs : s ≠ [])
    (h : nc.length < ctx.originalContent.length ∨ cur < ctx.cursorPosition ∨
         nc.take ctx.cursorPosition ≠ ctx.originalContent.take ctx.cursorPosition) :
    (handleContentChange true (some s) ⟨oldContent, some ctx, d⟩ nc cur).editor.suggestionContext = none ∧
    (handleContentChange true (some s) ⟨oldContent, some ctx, d⟩ nc cur).editor.displaySuggestion = none ∧
    (handleContentChange true (some s) ⟨oldContent, some ctx, d⟩ nc cur).copilotSuggestion = none := by
  have hT : jsTruthy (some s) = true := by
    simp [jsTruthy, List.isEmpty_iff, hs]
  by_cases hnc : nc = []
  · subst hnc
    simp [handleContentChange, hT, dismissAll]
  · by_cases h1 : nc.length < ctx.originalContent.length ∨ cur < ctx.cursorPosition
    · simp [handleContentChange, hT, hnc, h1, dismissAll]
    · have h3 : nc.take ctx.cursorPosition ≠ ctx.originalContent.take ctx.cursorPosition := by
        rcases h with h | h | h
        · exact absurd (Or.inl h) h1
        · exact absurd (Or.inr h) h1
        · exact h
      simp [handleContentChange, hT, hnc, h1, h3, dismissAll]

/-- C4 witness: backspacing from `"hello world"` to `"hello worl"` with a
live suggestion dismisses it. -/
theorem c4_disqualifying_edit_witness :
    strL " today" ≠ ([] : Str) ∧
    (strL "hello worl").length < (strL "hello world").length ∧
    (handleContentChange true (some (strL " today"))
      ⟨strL "hello world", some ⟨strL "hello world", 11, strL " today"⟩,
        some (strL " today")⟩ (strL "hello worl") 10).editor.suggestionContext = none ∧
    (handleContentChange true (some (strL " today"))
      ⟨strL "hello world", some ⟨strL "hello world", 11, strL " today"⟩,
        some (strL " today")⟩ (strL "hello worl") 10).editor.displaySuggestion = none ∧
    (handleContentChange true (some (strL " today"))
      ⟨strL "hello world", some ⟨strL "hello world", 11, strL " today"⟩,
        some (strL " today")⟩ (strL "hello worl") 10).copilotSuggestion = none := by
  have h := c4_disqualifying_edit (strL " today")
    ⟨strL "hello world", 11, strL " today"⟩ (some (strL " today"))
    (strL "hello world") (strL "hello worl") 10 (by decide) (Or.inl (by decide))
  exact ⟨by decide, by decide, h.1, h.2.1, h.2.2⟩

/-- C2: with a live suggestion `s` captured at snapshot `(orig, c)`, typing a
non-empty prefix `t` of `s` at the snapshot cursor (no other edit) shrinks
the display suggestion to `s.slice(t.length)` while keeping the context; in
the boundary case `t = s` the suggestion, its context and the hook
suggestion are all cleared (back to idle). -/
theorem c2_accept_by_typing (orig t s : Str) (c : Nat) (d : Option Str)
    (hc : c ≤ orig.length) (hs : s ≠ []) (ht : t ≠ [])
    (hpre : startsWithL s t = true) :
    (t ≠ s →
      (handleContentChange true (some s) ⟨orig, some ⟨orig, c, s⟩, d⟩
        (orig.take c ++ (t ++ orig.drop c)) (c + t.length)).editor.displaySuggestion =
        some (s.drop t.length) ∧
      (handleContentChange true (some s) ⟨orig, some ⟨orig, c, s⟩, d⟩
        (orig.take c ++ (t ++ orig.drop c)) (c + t.length)).editor.suggestionContext =
        some ⟨orig, c, s⟩ ∧
      (handleContentChange true (some s) ⟨orig, some ⟨orig, c, s⟩, d⟩
        (orig.take c ++ (t ++ orig.drop c)) (c + t.length)).copilotSuggestion = some s) ∧
    (t = s →
      (handleContentChange true (some s) ⟨orig, some ⟨orig, c, s⟩, d⟩
        (orig.take c ++ (t ++ orig.drop c)) (c + t.length)).editor.displaySuggestion = none ∧
      (handleContentChange true (some s) ⟨orig, some ⟨orig, c, s⟩, d⟩
        (orig.take c ++ (t ++ orig.drop c)) (c + t.length)).editor.suggestionContext = none ∧
      (handleContentChange true (some s) ⟨orig, some ⟨orig, c, s⟩, d⟩
        (orig.take c ++ (t ++ orig.drop c)) (c + t.length)).copilotSuggestion = none) := by
  have hT : jsTruthy (some s) = true := by simp [jsTruthy, List.isEmpty_iff, hs]
  have hlenA : (orig.take c).length = c := by
    simp [List.length_take, Nat.min_eq_left hc]
  have htl : 0 < t.length := List.length_pos.mpr ht
  have hnclen : (orig.take c ++ (t ++ orig.drop c)).length = orig.length + t.length := by
    simp only [List.length_append, hlenA, List.length_drop]
    omega
  have hncne : (orig.take c ++ (t ++ orig.drop c)) ≠ [] := by
    intro h0
    have h00 : (orig.take c ++ (t ++ orig.drop c)).length = 0 := by rw [h0]; rfl
    omega
  have h1 : ¬((orig.take c ++ (t ++ orig.drop c)).length < orig.length ∨
      c + t.length < c) := by omega
  have htake : (orig.take c ++ (t ++ orig.drop c)).take c = orig.take c :=
    List.take_left' hlenA
  have htyped : jsSlice (orig.take c ++ (t ++ orig.drop c)) c (c + t.length) = t := by
    unfold jsSlice
    rw [List.drop_left' hlenA]
    have h2 : c + t.length - c = t.length := by omega
    rw [h2, List.take_left]
  obtain ⟨u, hu⟩ := startsWithL_exists hpre
  have hdropt : s.drop t.length = u := by rw [hu]; exact List.drop_left _ _
  have hsl : s.length = t.length + u.length := by rw [hu]; simp
  have h1a : ¬(min c orig.length + (t.length + (orig.length - c)) < orig.length) := by
    omega
  constructor
  · intro hne
    have hupos : u ≠ [] := by
      intro h0
      apply hne
      rw [hu, h0, List.append_nil]
    have hlt : t.length < s.length := by
      have := List.length_pos.mpr hupos
      omega
    refine ⟨?_, ?_, ?_⟩ <;>
      simp [handleContentChange, hT, hncne, h1, h1a, htake, htyped, List.length_pos,
        ht, hpre, hlt]
  · intro hts
    have hu0 : u = [] := by
      subst hts
      have hlen := congrArg List.length hu
      simp only [List.length_append] at hlen
      exact List.length_eq_zero.mp (by omega)
    have hnlt : ¬(t.length < s.length) := by
      rw [hu0] at hsl
      simp only [List.length_nil] at hsl
      omega
    refine ⟨?_, ?_, ?_⟩ <;>
      simp [handleContentChange, hT, hncne, h1, h1a, htake, htyped, List.length_pos,
        ht, hpre, hnlt, dismissAll]

/-- C2 witness: typing `" wor"` against live suggestion `" world"` after
`"hello"` shrinks the display to `"ld"`. -/
theorem c2_accept_by_typing_witness :
    5 ≤ (strL "hello").length ∧ strL " world" ≠ ([] : Str) ∧
    strL " wor" ≠ ([] : Str) ∧
    startsWithL (strL " world") (strL " wor") = true ∧
    (handleContentChange true (some (strL " world"))
      ⟨strL "hello", some ⟨strL "hello", 5, strL " world"⟩, some (strL " world")⟩
      ((strL "hello").take 5 ++ (strL " wor" ++ (strL "hello").drop 5))
      (5 + (strL " wor").length)).editor.displaySuggestion =
      some ((strL " world").drop (strL " wor").length) := by
  have h := c2_accept_by_typing (strL "hello") (strL " wor") (strL " world") 5
    (some (strL " world")) (by decide) (by decide) (by decide) (by decide)
  exact ⟨by decide, by decide, by decide, by decide, (h.1 (by decide)).1⟩

theorem dismissAll_displayInv (es : EditorState) : DisplayInv (dismissAll es).editor := by
  intro d hd
  simp [dismissAll] at hd

theorem handleContentChange_displayInv (en : Bool) (cop : Option Str)
    (es : EditorState) (nc : Str) (cur : Nat) (h : DisplayInv es) :
    DisplayInv (handleContentChange en cop es nc cur).editor := by
  have hkeep : DisplayInv { es with content := nc } := by
    intro d hd
    exact h d hd
  by_cases hout : en = true ∧ nc ≠ []
  · cases hcop : jsTruthy cop with
    | false =>
      simp only [handleContentChange, hcop, if_pos hout]
      exact hkeep
    | true =>
      cases hctx : es.suggestionContext with
      | none =>
        simp only [handleContentChange, hcop, hctx, if_pos hout]
        intro d hd
        obtain ⟨hne, ctx2, hctx2, k, hk⟩ := h d hd
        rw [hctx] at hctx2
        cases hctx2
      | some ctx =>
        simp only [handleContentChange, hcop, hctx, if_pos hout]
        split_ifs with hA hB hC hD hE
        · exact dismissAll_displayInv _
        · exact dismissAll_displayInv _
        · intro d hd
          simp only [Option.some.injEq] at hd
          subst hd
          exact ⟨List.length_pos.mp hE, ctx, rfl,
            (jsSlice nc ctx.cursorPosition cur).length, rfl⟩
        · exact dismissAll_displayInv _
        · exact dismissAll_displayInv _
        · intro d hd
          obtain ⟨hne, ctx2, hctx2, k, hk⟩ := h d hd
          rw [hctx] at hctx2
          exact ⟨hne, ctx2, hctx2, k, hk⟩
  · simp only [handleContentChange, if_neg hout]
    split_ifs
    · exact dismissAll_displayInv _
    · exact hkeep

theorem handleKeyDown_displayInv (k : KeyEvent) (cop : Option Str)
    (es : EditorState) (p : Nat) (h : DisplayInv es) :
    DisplayInv (handleKeyDown k cop es p).editor := by
  cases k with
  | tab =>
    unfold handleKeyDown
    split_ifs
    · intro d hd
      simp at hd
    · exact h
  | escape =>
    unfold handleKeyDown
    split_ifs
    · intro d hd
      simp at hd
    · exact h
  | otherKey => exact h

theorem stepEd_displayInv (st : EditorSys) (ev : EdEvent)
    (h : DisplayInv st.editor) : DisplayInv (stepEd st ev).editor := by
  cases ev with
  | receiveEffect sel =>
    unfold stepEd
    split_ifs with h1 h2
    · obtain ⟨hT, hctx⟩ := h1
      obtain ⟨sug, hsug, hne⟩ := jsTruthy_iff.mp hT
      intro d hd
      simp only [hsug, Option.some.injEq] at hd
      subst hd
      refine ⟨hne, ⟨st.editor.content, sel, st.copilotSuggestion.getD []⟩, rfl, 0, ?_⟩
      simp [hsug]
    · intro d hd
      simp at hd
    · exact h
  | change nc cur => exact handleContentChange_displayInv _ _ _ _ _ h
  | tabKey p => exact handleKeyDown_displayInv _ _ _ _ h
  | escKey p => exact handleKeyDown_displayInv _ _ _ _ h
  | setSuggestion sug => exact h
  | toggleEvent => exact h

/-- C8: across every sequence of controller operations (suggestion received,
keystroke comparison, accept, dismiss, toggle) starting from the initial
state, the display suggestion is always either absent or a non-empty suffix
of the suggestion string captured in the live context. -/
theorem c8_display_suffix_invariant (tr : List EdEvent) :
    DisplayInv ((tr.foldl stepEd initEd).editor) := by
  have aux : ∀ (l : List EdEvent) (st : EditorSys), DisplayInv st.editor →
      DisplayInv ((l.foldl stepEd st).editor) := by
    intro l
    induction l with
    | nil => exact fun st h => h
    | cons e rest ih => exact fun st h => ih _ (stepEd_displayInv st e h)
  apply aux
  intro d hd
  simp [initEd] at hd

/-- C5: a candidate deferred by the 2000 ms minimum-interval rule arms
exactly one retry timer carrying the snapshot of the debounced
(text, cursor), firing when the interval elapses, and does not dispatch; a
deferred candidate never replaces an already-armed timer; when the timer
fires, a request is dispatched iff the stored snapshot still equals the
latest debounced input, no suggestion is displayed, the feature is enabled
and no request is loading (and the pending retry is cleared either way);
and any new keystroke cancels the pending retry. -/
theorem c5_deferred_retry (s : SchedState) (now : Nat)
    (hne : s.debouncedRequestText ≠ [])
    (hen : s.copilot.isEnabled = true)
    (hld : s.copilot.isLoading = false)
    (hcd : s.rateLimitCooldownUntil ≤ now)
    (hlast : s.lastRequestTime ≤ now)
    (hint : now - s.lastRequestTime < 2000)
    (hpend : s.pendingRetry = none) :
    (stepE s now .effectRun).pendingRetry =
      some ⟨s.debouncedRequestText, s.debouncedRequestCursor,
        s.lastRequestTime + 2000⟩ ∧
    dispatches s now .effectRun = false ∧
    (∀ s2 : SchedState, ∀ r : RetryData, s2.pendingRetry = some r →
      ((dispatches s2 r.firesAt .retryFire = true) ↔
        (r.text = s2.debouncedRequestText ∧ r.cursor = s2.debouncedRequestCursor ∧
         jsTruthy s2.copilot.suggestion = false ∧ s2.copilot.isEnabled = true ∧
         s2.copilot.isLoading = false)) ∧
      (stepE s2 r.firesAt .retryFire).pendingRetry = none) ∧
    (∀ s3 : SchedState, ∀ t3 : Nat, ∀ text : Str, ∀ cursor : Nat,
      (stepE s3 t3 (.newInput text cursor)).pendingRetry = none) ∧
    (∀ s4 : SchedState, ∀ t4 : Nat, ∀ r4 : RetryData, s4.pendingRetry = some r4 →
      s4.debouncedRequestText ≠ [] → s4.copilot.isEnabled = true →
      s4.copilot.isLoading = false → s4.rateLimitCooldownUntil ≤ t4 →
      t4 - s4.lastRequestTime < 2000 →
      (stepE s4 t4 .effectRun).pendingRetry = some r4) := by
  refine ⟨?_, ?_, ?_, ?_, ?_⟩
  · have hfires : now + (2000 - (now - s.lastRequestTime)) = s.lastRequestTime + 2000 := by
      omega
    have hncd : ¬(now < s.rateLimitCooldownUntil) := by omega
    simp [stepE, hne, hen, hld, hpend, hncd, hint, hfires]
  · have hni : ¬(2000 ≤ now - s.lastRequestTime) := by omega
    simp [dispatches, hni]
  · intro s2 r hr
    constructor
    · simp only [dispatches, hr, retryConditions, Bool.and_eq_true, beq_iff_eq,
        Bool.not_eq_true']
      tauto
    · simp only [stepE, hr]
      split_ifs <;> rfl
  · intro s3 t3 text cursor
    simp [stepE]
  · intro s4 t4 r4 hr4 hne4 hen4 hld4 hcd4 hint4
    have hncd4 : ¬(t4 < s4.rateLimitCooldownUntil) := by omega
    simp [stepE, hne4, hen4, hld4, hr4, hncd4, hint4]

/-- C5 witness: a concrete deferred candidate at tick 1000 with
`lastRequestTime = 0` arms a retry for tick 2000 and does not dispatch. -/
theorem c5_deferred_retry_witness :
    (stepE ⟨⟨none, false, true, none⟩, strL "hello", 5, [], 0, 0, none, 0⟩ 1000
      .effectRun).pendingRetry = some ⟨strL "hello", 5, 2000⟩ ∧
    dispatches ⟨⟨none, false, true, none⟩, strL "hello", 5, [], 0, 0, none, 0⟩ 1000
      .effectRun = false := by
  have h := c5_deferred_retry
    ⟨⟨none, false, true, none⟩, strL "hello", 5, [], 0, 0, none, 0⟩ 1000
    (by decide) (by decide) (by decide) (by decide) (by decide) (by decide) (by decide)
  exact ⟨h.1, h.2.1⟩

theorem clock_stepE (s : SchedState) (t : Nat) (ev : SchedEvent) :
    (stepE s t ev).clock = t := by
  cases ev <;> cases hp : s.pendingRetry <;>
    simp only [stepE, hp] <;>
    first
      | rfl
      | (split_ifs <;> rfl)

theorem validFrom_cons {s : SchedState} {t : Nat} {ev : SchedEvent}
    {tr : List (Nat × SchedEvent)} (h : validFrom s ((t, ev) :: tr) = true) :
    validStep s t ev = true ∧ validFrom (stepE s t ev) tr = true := by
  simpa [validFrom, Bool.and_eq_true] using h

theorem validFrom_append {a : List (Nat × SchedEvent)} :
    ∀ {s : SchedState} {b : List (Nat × SchedEvent)},
    validFrom s (a ++ b) = true →
    validFrom s a = true ∧ validFrom (runTrace s a) b = true := by
  induction a with
  | nil => exact fun h => ⟨rfl, h⟩
  | cons e rest ih =>
    intro s b h
    obtain ⟨t, ev⟩ := e
    rw [List.cons_append] at h
    obtain ⟨h1, h2⟩ := validFrom_cons h
    obtain ⟨h3, h4⟩ := ih h2
    constructor
    · simp [validFrom, h1, h3]
    · simpa [runTrace] using h4

theorem validStep_parts {s : SchedState} {t : Nat} {ev : SchedEvent}
    (h : validStep s t ev = true) :
    s.clock ≤ t ∧ ∀ r, s.pendingRetry = some r → t ≤ r.firesAt := by
  simp only [validStep, Bool.and_eq_true, decide_eq_true_eq] at h
  refine ⟨h.1.1, ?_⟩
  intro r hr
  have h2 := h.1.2
  rw [hr] at h2
  simpa using h2

theorem schedInv_step (s : SchedState) (t : Nat) (ev : SchedEvent)
    (hg : SchedInv s) (hv : validStep s t ev = true) : SchedInv (stepE s t ev) := by
  obtain ⟨hg1, hg2⟩ := hg
  obtain ⟨hclock, hpfire⟩ := validStep_parts hv
  cases ev with
  | effectRun =>
    cases hp : s.pendingRetry with
    | none =>
      simp only [stepE, hp]
      split_ifs with h1 h2 h3
      · refine ⟨by show s.lastRequestTime ≤ t; omega, ?_⟩
        intro r hr
        simp at hr
      · refine ⟨by show s.lastRequestTime ≤ t; omega, ?_⟩
        intro r hr
        simp only [Option.some.injEq] at hr
        subst hr
        refine Or.inl ⟨h1.2.2, ?_⟩
        show t + (2000 - (t - s.lastRequestTime)) = s.lastRequestTime + 2000
        omega
      · refine ⟨by show t ≤ t; omega, ?_⟩
        intro r hr
        simp at hr
      · refine ⟨by show s.lastRequestTime ≤ t; omega, ?_⟩
        intro r hr
        simp at hr
    | some r0 =>
      have hd := hg2 r0 hp
      simp only [stepE, hp]
      split_ifs with h1 h2 h3
      · refine ⟨by show s.lastRequestTime ≤ t; omega, ?_⟩
        intro r hr
        simp only [Option.some.injEq] at hr
        subst hr
        simpa using hd
      · refine ⟨by show s.lastRequestTime ≤ t; omega, ?_⟩
        intro r hr
        simp only [Option.some.injEq] at hr
        subst hr
        simpa using hd
      · refine ⟨by show t ≤ t; omega, ?_⟩
        intro r hr
        simp only [Option.some.injEq] at hr
        subst hr
        rcases hd with ⟨hL, hF⟩ | ⟨hL, _⟩
        · refine Or.inr ⟨rfl, ?_⟩
          show r0.firesAt ≤ t
          omega
        · rw [h1.2.2] at hL
          cases hL
      · refine ⟨by show s.lastRequestTime ≤ t; omega, ?_⟩
        intro r hr
        simp only [Option.some.injEq] at hr
        subst hr
        simpa using hd
  | retryFire =>
    cases hp : s.pendingRetry with
    | none => simp [validStep, hp] at hv
    | some r0 =>
      simp only [stepE, hp]
      split_ifs with hc
      · refine ⟨by show t ≤ t; omega, ?_⟩
        intro r hr
        simp at hr
      · refine ⟨by show s.lastRequestTime ≤ t; omega, ?_⟩
        intro r hr
        simp at hr
  | newInput text cursor =>
    refine ⟨by show s.lastRequestTime ≤ t; omega, ?_⟩
    intro r hr
    simp [stepE] at hr
  | responseOk sug =>
    have hvp : s.copilot.isLoading = true ∧ s.lastRequestTime < t := by
      simp only [validStep, Bool.and_eq_true, decide_eq_true_eq] at hv
      exact hv.2
    refine ⟨by show s.lastRequestTime ≤ t; omega, ?_⟩
    intro r hr
    have hr2 : s.pendingRetry = some r := hr
    exfalso
    have hfb := hpfire r hr2
    rcases hg2 r hr2 with ⟨hL, _⟩ | ⟨_, hF⟩
    · rw [hvp.1] at hL
      cases hL
    · omega
  | responseFail msg =>
    have hvp : s.copilot.isLoading = true ∧ s.lastRequestTime < t := by
      simp only [validStep, Bool.and_eq_true, decide_eq_true_eq] at hv
      exact hv.2
    refine ⟨by show s.lastRequestTime ≤ t; omega, ?_⟩
    intro r hr
    have hr2 : s.pendingRetry = some r := hr
    exfalso
    have hfb := hpfire r hr2
    rcases hg2 r hr2 with ⟨hL, _⟩ | ⟨_, hF⟩
    · rw [hvp.1] at hL
      cases hL
    · omega
  | toggleCopilot =>
    refine ⟨by show s.lastRequestTime ≤ t; omega, ?_⟩
    intro r hr
    have hr2 : s.pendingRetry = some r := hr
    simpa using hg2 r hr2
  | acceptEvent =>
    refine ⟨by show s.lastRequestTime ≤ t; omega, ?_⟩
    intro r hr
    have hr2 : s.pendingRetry = some r := hr
    simpa [acceptSuggestion] using hg2 r hr2
  | dismissEvent =>
    refine ⟨by show s.lastRequestTime ≤ t; omega, ?_⟩
    intro r hr
    have hr2 : s.pendingRetry = some r := hr
    simpa [dismissSuggestion] using hg2 r hr2

theorem schedInv_run : ∀ (tr : List (Nat × SchedEvent)) (s : SchedState),
    SchedInv s → validFrom s tr = true → SchedInv (runTrace s tr) := by
  intro tr
  induction tr with
  | nil => exact fun s hg _ => hg
  | cons e rest ih =>
    intro s hg hval
    obtain ⟨t, ev⟩ := e
    obtain ⟨h1, h2⟩ := validFrom_cons hval
    exact ih (stepE s t ev) (schedInv_step s t ev hg h1) h2

theorem pendingNone_at_response (s : SchedState) (t : Nat) (msg : Str)
    (hg : SchedInv s) (hv : validStep s t (.responseFail msg) = true) :
    s.pendingRetry = none := by
  cases hp : s.pendingRetry with
  | none => rfl
  | some r0 =>
    exfalso
    obtain ⟨hclock, hpfire⟩ := validStep_parts hv
    have hvp : s.copilot.isLoading = true ∧ s.lastRequestTime < t := by
      simp only [validStep, Bool.and_eq_true, decide_eq_true_eq] at hv
      exact hv.2
    have hfb := hpfire r0 hp
    rcases hg.2 r0 hp with ⟨hL, _⟩ | ⟨_, hF⟩
    · rw [hvp.1] at hL
      cases hL
    · omega

theorem cooldown_step (T : Nat) (s : SchedState) (t : Nat) (ev : SchedEvent)
    (hC : CooldownInv T s) (hv : validStep s t ev = true) (ht : t < T + 60000) :
    CooldownInv T (stepE s t ev) ∧ dispatches s t ev = false ∧
      (stepE s t ev).pendingRetry = none := by
  obtain ⟨hcd, hpn, hTc⟩ := hC
  obtain ⟨hclock, _⟩ := validStep_parts hv
  cases ev with
  | effectRun =>
    have hlt : t < s.rateLimitCooldownUntil := by omega
    have hub : ¬(s.rateLimitCooldownUntil ≤ t) := by omega
    refine ⟨?_, ?_, ?_⟩
    · simp only [stepE, hpn]
      split_ifs with h1
      · exact ⟨hcd, rfl, by show T ≤ t; omega⟩
      · exact ⟨hcd, rfl, by show T ≤ t; omega⟩
    · simp [dispatches, hub]
    · simp only [stepE, hpn]
      split_ifs with h1
      · rfl
      · rfl
  | retryFire =>
    simp [validStep, hpn] at hv
  | newInput text cursor =>
    exact ⟨⟨hcd, rfl, by show T ≤ t; omega⟩, rfl, rfl⟩
  | responseOk sug =>
    exact ⟨⟨hcd, hpn, by show T ≤ t; omega⟩, rfl, hpn⟩
  | responseFail msg =>
    by_cases hRL : isRateLimitMsg msg = true
    · refine ⟨⟨?_, hpn, by show T ≤ t; omega⟩, rfl, hpn⟩
      simp only [stepE, hRL, if_true]
      show T + 60000 ≤ t + 60000
      omega
    · refine ⟨⟨?_, hpn, by show T ≤ t; omega⟩, rfl, hpn⟩
      simp only [stepE, hRL, if_false]
      exact hcd
  | toggleCopilot =>
    exact ⟨⟨hcd, hpn, by show T ≤ t; omega⟩, rfl, hpn⟩
  | acceptEvent =>
    exact ⟨⟨hcd, hpn, by show T ≤ t; omega⟩, rfl, hpn⟩
  | dismissEvent =>
    exact ⟨⟨hcd, hpn, by show T ≤ t; omega⟩, rfl, hpn⟩

theorem clock_le_of_validFrom : ∀ (tr : List (Nat × SchedEvent)) (s : SchedState),
    validFrom s tr = true → ∀ i (hi : i < tr.length),
      s.clock ≤ (tr.get ⟨i, hi⟩).1 := by
  intro tr
  induction tr with
  | nil =>
    intro s _ i hi
    exact absurd hi (by simp)
  | cons e rest ih =>
    intro s hval i hi
    obtain ⟨t, ev⟩ := e
    obtain ⟨h1, h2⟩ := validFrom_cons hval
    obtain ⟨hclk, _⟩ := validStep_parts h1
    cases i with
    | zero => simpa using hclk
    | succ j =>
      have hj : j < rest.length := by simpa using hi
      have hrec := ih (stepE s t ev) h2 j hj
      rw [clock_stepE] at hrec
      have hget : ((t, ev) :: rest).get ⟨j + 1, hi⟩ = rest.get ⟨j, hj⟩ := rfl
      rw [hget]
      omega

theorem cooldown_run (T : Nat) : ∀ (tr : List (Nat × SchedEvent)) (s : SchedState),
    CooldownInv T s → validFrom s tr = true →
    ∀ i (hi : i < tr.length), (tr.get ⟨i, hi⟩).1 < T + 60000 →
      dispatches (runTrace s (tr.take i)) (tr.get ⟨i, hi⟩).1 (tr.get ⟨i, hi⟩).2 = false ∧
      (runTrace s (tr.take (i + 1))).pendingRetry = none := by
  intro tr
  induction tr with
  | nil =>
    intro s _ _ i hi
    exact absurd hi (by simp)
  | cons e rest ih =>
    intro s hC hval i hi hti
    obtain ⟨t, ev⟩ := e
    obtain ⟨h1, h2⟩ := validFrom_cons hval
    cases i with
    | zero =>
      have ht : t < T + 60000 := by simpa using hti
      have hstep := cooldown_step T s t ev hC h1 ht
      exact ⟨hstep.2.1, hstep.2.2⟩
    | succ j =>
      have hj : j < rest.length := by simpa using hi
      have htj : (rest.get ⟨j, hj⟩).1 < T + 60000 := by simpa using hti
      have ht : t < T + 60000 := by
        have hmono := clock_le_of_validFrom rest (stepE s t ev) h2 j hj
        rw [clock_stepE] at hmono
        omega
      have hstep := cooldown_step T s t ev hC h1 ht
      have hrec := ih (stepE s t ev) hstep.1 h2 j hj htj
      exact hrec

/-- C7: after a completion failure whose error text marks provider
throttling (contains 429 / Too Many Requests / quota) at tick `T`, every
subsequent event of a valid trace occurring before `T + 60000` dispatches no
completion request, and no retry timer is armed throughout that window
(candidates arriving during the cooldown are dropped without arming one). -/
theorem c7_cooldown_window (tr0 : List (Nat × SchedEvent)) (T : Nat) (msg : Str)
    (tr1 : List (Nat × SchedEvent))
    (hval : validFrom initSched (tr0 ++ (T, .responseFail msg) :: tr1) = true)
    (hrl : isRateLimitMsg msg = true) :
    ∀ i (hi : i < tr1.length), (tr1.get ⟨i, hi⟩).1 < T + 60000 →
      dispatches
        (runTrace (stepE (runTrace initSched tr0) T (.responseFail msg)) (tr1.take i))
        (tr1.get ⟨i, hi⟩).1 (tr1.get ⟨i, hi⟩).2 = false ∧
      (runTrace (stepE (runTrace initSched tr0) T (.responseFail msg))
        (tr1.take (i + 1))).pendingRetry = none := by
  obtain ⟨hv0, hv1⟩ := validFrom_append hval
  obtain ⟨hvstep, hvrest⟩ := validFrom_cons hv1
  have hginit : SchedInv initSched := by
    refine ⟨Nat.le_refl 0, ?_⟩
    intro r hr
    cases hr
  have hgT : SchedInv (runTrace initSched tr0) := schedInv_run tr0 initSched hginit hv0
  have hpn : (runTrace initSched tr0).pendingRetry = none :=
    pendingNone_at_response _ T msg hgT hvstep
  have hC : CooldownInv T (stepE (runTrace initSched tr0) T (.responseFail msg)) := by
    refine ⟨?_, ?_, ?_⟩
    · simp only [stepE, hrl, if_true]
      show T + 60000 ≤ T + 60000
      omega
    · simpa [stepE] using hpn
    · rw [clock_stepE]
  exact cooldown_run T tr1 _ hC hvrest

/-- C7 witness: enable, type, dispatch at 2500, throttling error at 3000
(cooldown until 63000); the candidate run at 4000 neither dispatches nor
arms a retry. -/
theorem c7_cooldown_window_witness :
    validFrom initSched
      ([(10, SchedEvent.toggleCopilot),
        (20, SchedEvent.newInput (strL "hello world note") 16),
        (2500, SchedEvent.effectRun)] ++
        (3000, SchedEvent.responseFail (strL "429 quota exceeded")) ::
        [(4000, SchedEvent.effectRun)]) = true ∧
    isRateLimitMsg (strL "429 quota exceeded") = true ∧
    (4000 : Nat) < 3000 + 60000 ∧
    dispatches
      (runTrace (stepE (runTrace initSched
        [(10, SchedEvent.toggleCopilot),
         (20, SchedEvent.newInput (strL "hello world note") 16),
         (2500, SchedEvent.effectRun)]) 3000
        (SchedEvent.responseFail (strL "429 quota exceeded")))
        (List.take 0 [(4000, SchedEvent.effectRun)]))
      4000 SchedEvent.effectRun = false ∧
    (runTrace (stepE (runTrace initSched
        [(10, SchedEvent.toggleCopilot),
         (20, SchedEvent.newInput (strL "hello world note") 16),
         (2500, SchedEvent.effectRun)]) 3000
        (SchedEvent.responseFail (strL "429 quota exceeded")))
        (List.take 1 [(4000, SchedEvent.effectRun)])).pendingRetry = none := by
  have h := c7_cooldown_window
    [(10, SchedEvent.toggleCopilot),
     (20, SchedEvent.newInput (strL "hello world note") 16),
     (2500, SchedEvent.effectRun)] 3000 (strL "429 quota exceeded")
    [(4000, SchedEvent.effectRun)] (by decide) (by decide) 0 (by decide) (by decide)
  exact ⟨by decide, by decide, by decide, h.1, h.2⟩
